import Mathlib

/-!
# Verification of the transaction aggregation engine

Shallow embedding of the client-side aggregation logic of the finance
dashboard (`src/components/TransactionsList.jsx`, `src/components/StatsView.jsx`).
All definitions are translated from the JavaScript source; platform behaviour
(JS `Date`, string comparison, stable `Array.sort`) is modelled explicitly and
noted at each definition.

Numeric model: transaction amounts are modelled as `Int` (the app stores whole
VND amounts) and the budget arithmetic, which divides, as exact rationals `ℚ`
in place of IEEE doubles.
-/

namespace Finance

/-! ## Calendar model (JS `Date` at day granularity)

A JS `Date` used at day granularity is modelled as the integer count of days
since the Unix epoch (`1970-01-01` = day 0).  `civilFromDays` is the standard
civil-from-days conversion (proleptic Gregorian, matching JS `Date` getters
`getFullYear`/`getMonth`+1/`getDate`). -/

/-- Gregorian leap-year rule, as implemented by the JS `Date` object. -/
def isLeap (y : Int) : Bool := (y % 4 == 0 && y % 100 != 0) || y % 400 == 0

/-- Number of days in month `m` (1-based) of year `y`; models
`new Date(y, m, 0).getDate()` in the JS source (`TransactionsList.jsx` line 144). -/
def daysInMonth (y : Int) (m : Nat) : Nat :=
  if m = 2 then (if isLeap y then 29 else 28)
  else if m = 4 ∨ m = 6 ∨ m = 9 ∨ m = 11 then 30
  else 31

/-- Convert a day number (days since 1970-01-01) to civil year/month/day,
months 1-based.  Models the JS `Date` getters. -/
def civilFromDays (z0 : Int) : Int × Nat × Nat :=
  let z := z0 + 719468
  let era := z.fdiv 146097
  let doe := (z - era * 146097).toNat
  let yoe := (doe - doe / 1460 + doe / 36524 - doe / 146096) / 365
  let y : Int := (yoe : Int) + era * 400
  let doy := doe - (365 * yoe + yoe / 4 - yoe / 100)
  let mp := (5 * doy + 2) / 153
  let d := doy - (153 * mp + 2) / 5 + 1
  let m := if mp < 10 then mp + 3 else mp - 9
  (if m ≤ 2 then y + 1 else y, m, d)

/-- Two-digit zero-padded decimal rendering; models
`String(n).padStart(2, '0')` (`TransactionsList.jsx` line 389) for `n < 100`,
the only range that occurs for month and day fields. -/
def pad2 (n : Nat) : String := String.mk [Nat.digitChar (n / 10), Nat.digitChar (n % 10)]

/-- `toISO` from `TransactionsList.jsx` lines 388-391:
`${d.getFullYear()}-${pad(d.getMonth()+1)}-${pad(d.getDate())}`. -/
def toISO (z : Int) : String :=
  let c := civilFromDays z
  toString c.1 ++ "-" ++ pad2 c.2.1 ++ "-" ++ pad2 c.2.2

/-- `daysAgo` from `TransactionsList.jsx` lines 393-397.  The ambient clock
(`new Date()`) is passed explicitly as the day number `today`;
`d.setDate(d.getDate() - n)` is exactly day-number subtraction. -/
def daysAgo (today : Int) (n : Nat) : String := toISO (today - n)

/-- A civil calendar date (month 1-based); the shape of a Firestore
timestamp's `.toDate()` viewed at day granularity. -/
structure CivilDate where
  year : Int
  month : Nat
  day : Nat
deriving DecidableEq, Repr

/-- `format(d, 'yyyy-MM-dd')` (date-fns) on a civil date. -/
def isoOfDate (d : CivilDate) : String :=
  toString d.year ++ "-" ++ pad2 d.month ++ "-" ++ pad2 d.day

/-! ## String model (JS string operations) -/

/-- `s || ''` on an optional string field (JS `undefined`/missing ↦ `''`). -/
def jsStr (s : Option String) : String := s.getD ""

/-- Does `sub` occur at the head of `l`? -/
def startsWithCh : List Char → List Char → Bool
  | [], _ => true
  | _ :: _, [] => false
  | a :: as, b :: bs => a == b && startsWithCh as bs

/-- Does `sub` occur contiguously in `l`? -/
def hasSub (sub : List Char) : List Char → Bool
  | [] => sub.isEmpty
  | c :: rest => startsWithCh sub (c :: rest) || hasSub sub rest

/-- `hay.includes(sub)` on JS strings. -/
def includes (hay sub : String) : Bool := hasSub sub.data hay.data

/-- JS `a >= b` on strings: lexicographic code-unit comparison, i.e. `¬(a < b)`.
Lean's `String` order is lexicographic on characters, which agrees with the
JS comparison on the BMP text this app handles. -/
def jsGe (a b : String) : Bool := !(decide (a < b))

/-- JS `a <= b` on strings. -/
def jsLe (a b : String) : Bool := !(decide (b < a))

/-! ## Transactions of the `FinanceTrackerApp` component
(`TransactionsList.jsx`, second component in the file).

Fields that the source reads with a falsy-default (`t.note || ''`) or guards
for absence (`!t.date`, `t.type === ...` on a possibly missing field) are
`Option`s. -/

structure Tx where
  type : Option String
  amount : Int
  category : String
  note : Option String
  date : Option String
deriving DecidableEq, Repr

/-- The view filters of `FinanceTrackerApp`.  `queryText`, `startDate`,
`endDate` use the empty string for "unset" exactly as the JS state does
(`!queryText`, `!startDate`, `!endDate` are the falsy tests). -/
structure Filters where
  typeFilter : String
  categoryFilter : String
  queryText : String
  startDate : String
  endDate : String
deriving DecidableEq, Repr

/-- `typeFilter === 'all' || t.type === typeFilter`
(`TransactionsList.jsx` line 600).  Note: the raw `type` field is compared,
with no `|| 'expense'` defaulting; a missing `type` never equals a string. -/
def inTypeB (f : Filters) (t : Tx) : Bool :=
  f.typeFilter == "all" || t.type == some f.typeFilter

/-- `categoryFilter === 'all' || t.category === categoryFilter` (line 601). -/
def inCategoryB (f : Filters) (t : Tx) : Bool :=
  f.categoryFilter == "all" || t.category == f.categoryFilter

/-- `!queryText || (t.note || '').toLowerCase().includes(queryText.toLowerCase())`
(line 602). -/
def inTextB (f : Filters) (t : Tx) : Bool :=
  f.queryText == "" || includes (jsStr t.note).toLower f.queryText.toLower

/-- `(!startDate || t.date >= startDate) && (!endDate || t.date <= endDate)`
(line 603).  A missing `date` compares as JS `undefined`, which fails both
relational tests. -/
def inDateB (f : Filters) (t : Tx) : Bool :=
  (f.startDate == "" || (match t.date with
    | some d => jsGe d f.startDate
    | none => false))
  && (f.endDate == "" || (match t.date with
    | some d => jsLe d f.endDate
    | none => false))

/-- The conjunction of the four filter predicates (lines 599-604). -/
def passes (f : Filters) (t : Tx) : Bool :=
  inTypeB f t && inCategoryB f t && inTextB f t && inDateB f t

/-- `filtered` (`applyFilters` in the spec), `TransactionsList.jsx`
lines 598-606. -/
def filtered (f : Filters) (txs : List Tx) : List Tx := txs.filter (passes f)

/-! ## Totals (`sums`, lines 624-632, and the totals of the first
dashboard component, lines 76-78 / `StatsView.jsx` lines 46-67) -/

structure Sums where
  income : Int
  expense : Int
  balance : Int
deriving DecidableEq, Repr

/-- `sums` from `TransactionsList.jsx` lines 624-632: a single pass where
`t.type === 'income'` accumulates income and *everything else* (including a
missing type) accumulates expense. -/
def sums (l : List Tx) : Sums :=
  let p := l.foldl
    (fun (p : Int × Int) t =>
      if t.type == some "income" then (p.1 + t.amount, p.2) else (p.1, p.2 + t.amount))
    (0, 0)
  ⟨p.1, p.2, p.1 - p.2⟩

/-- `t.type || 'expense'`: the JS falsy-default, which also maps the empty
string to `'expense'`. -/
def jsOrType (t : Option String) : String :=
  match t with
  | none => "expense"
  | some s => if s = "" then "expense" else s

/-- Modelled from the spec: the *effective type* of a transaction, "one of
`{income, expense}`; absent/missing values default to `expense`". -/
def effType (t : Option String) : String := t.getD "expense"

/-- Transactions of the first dashboard component and `StatsView.jsx`, whose
`date` is a Firestore timestamp (always present; viewed at day granularity). -/
structure Tx1 where
  type : Option String
  amount : Int
  category : String
  date : CivilDate
deriving DecidableEq, Repr

/-- `transactions.filter(t => t.type === 'income').reduce((a,t) => a + t.amount, 0)`
(`TransactionsList.jsx` line 76, `StatsView.jsx` lines 48/67). -/
def totalIncome (l : List Tx1) : Int :=
  ((l.filter fun t => t.type == some "income").map Tx1.amount).sum

/-- `transactions.filter(t => (t.type || 'expense') === 'expense').reduce(...)`
(`TransactionsList.jsx` line 77, `StatsView.jsx` lines 47/66). -/
def totalExpense (l : List Tx1) : Int :=
  ((l.filter fun t => jsOrType t.type == "expense").map Tx1.amount).sum

/-- `totalBalance = totalIncome - totalExpense` (line 78). -/
def totalBalance (l : List Tx1) : Int := totalIncome l - totalExpense l

/-! ## This-month expense (`monthlyExpenses`, lines 642-653) -/

/-- Split a character list at every `'-'`. -/
def splitDash : List Char → List (List Char)
  | [] => [[]]
  | c :: rest =>
    let r := splitDash rest
    if c = '-' then [] :: r
    else
      match r with
      | [] => [[c]]
      | h :: t => (c :: h) :: t

/-- The numeric value of a decimal digit character. -/
def digVal (c : Char) : Option Nat :=
  if '0' ≤ c ∧ c ≤ '9' then some (c.toNat - '0'.toNat) else none

def readNatAux : List Char → Nat → Option Nat
  | [], acc => some acc
  | c :: cs, acc =>
    match digVal c with
    | some d => readNatAux cs (acc * 10 + d)
    | none => none

/-- Parse a non-empty all-digit character list as a decimal number. -/
def readNat : List Char → Option Nat
  | [] => none
  | l => readNatAux l 0

/-- Model of the platform's `new Date(string)` parse on the canonical
`YYYY-MM-DD` day strings this application writes (`toISO`); any other string
is treated as unparseable (`Number.isNaN(d.getTime())`), which is also how
the JS engine treats malformed ISO day strings.  Out-of-range components make
the ISO parse fail in JS, hence the range checks. -/
def parseDate (s : String) : Option CivilDate :=
  match splitDash s.data with
  | [ys, ms, ds] =>
    if ys.length = 4 ∧ ms.length = 2 ∧ ds.length = 2 then
      match readNat ys, readNat ms, readNat ds with
      | some y, some m, some d =>
        if 1 ≤ m ∧ m ≤ 12 ∧ 1 ≤ d ∧ d ≤ daysInMonth y m then
          some ⟨y, m, d⟩
        else none
      | _, _, _ => none
    else none
  | _ => none

/-- `monthlyExpenses` from `TransactionsList.jsx` lines 642-653, with the
reference month (`currentMonth`, from `new Date()`) passed explicitly as a
1-based civil year/month.  The source skips a record when
`t.type !== 'expense'` (note: the *raw* field; a missing type is skipped) or
when `!t.date`, parses `new Date(t.date)`, skips `NaN`, and otherwise adds
`Number(t.amount || 0)` when year and month match.  It reads the *unfiltered*
transaction list.  (A `date` that is the empty string is skipped by the
`!t.date` test in JS; here it is skipped because `parseDate "" = none`,
with the same result.) -/
def monthStep (year : Int) (month : Nat) (total : Int) (t : Tx) : Int :=
  if t.type != some "expense" then total
  else match t.date with
    | none => total
    | some ds =>
      match parseDate ds with
      | none => total
      | some d =>
        if d.year = year ∧ d.month = month then total + t.amount else total

def monthlyExpenses (year : Int) (month : Nat) (txs : List Tx) : Int :=
  txs.foldl (monthStep year month) 0

/-! ## Budget derivation (lines 655-665) -/

structure BudgetStatus where
  isSet : Bool
  remaining : Option ℚ
  spentRatio : ℚ
  percent : ℤ
  isOverBudget : Bool
deriving DecidableEq, Repr

/-- JS `Math.round`: round half toward positive infinity. -/
def jsRound (q : ℚ) : ℤ := ⌊q + 1 / 2⌋

/-- The budget derivation of `TransactionsList.jsx` lines 655-658, plus the
over-budget test `budgetRemaining != null && budgetRemaining < 0` used at
lines 661-662 and 908:
```
budgetIsSet = monthlyBudget != null && monthlyBudget > 0
budgetRemaining = budgetIsSet ? monthlyBudget - monthlyExpenses : null
budgetSpentRatio = budgetIsSet && monthlyBudget > 0 ? Math.min(1, e / b) : 0
budgetProgressPercent = Math.min(100, Math.max(0, Math.round(ratio * 100)))
```
JS numbers are modelled as exact rationals. -/
def deriveBudgetStatus (monthlyBudget : Option ℚ) (monthlyExpense : ℚ) : BudgetStatus :=
  let budgetIsSet : Bool :=
    match monthlyBudget with
    | some b => decide (0 < b)
    | none => false
  let budgetRemaining : Option ℚ :=
    if budgetIsSet then some (monthlyBudget.getD 0 - monthlyExpense) else none
  let budgetSpentRatio : ℚ :=
    if budgetIsSet && decide (0 < monthlyBudget.getD 0) then
      min 1 (monthlyExpense / monthlyBudget.getD 0)
    else 0
  let budgetProgressPercent : ℤ := min 100 (max 0 (jsRound (budgetSpentRatio * 100)))
  let isOverBudget : Bool :=
    match budgetRemaining with
    | some r => decide (r < 0)
    | none => false
  ⟨budgetIsSet, budgetRemaining, budgetSpentRatio, budgetProgressPercent, isOverBudget⟩

/-! ## 30-day rolling window (`chartDaily`, lines 670-686)

The JS builds an object `map` keyed by the 30 ISO day labels and mutates its
entries; the object is modelled as a function `String → Option DayEntry`
(absent key ↦ `none`). -/

structure DayEntry where
  date : String
  income : Int
  expense : Int
  net : Int
deriving DecidableEq, Repr

/-- The 30 window labels, oldest first: the loop
`for (let i = 29; i >= 0; i--) dates.push(daysAgo(i))` (lines 673-677). -/
def windowDates (today : Int) : List String :=
  (List.range 30).map fun k => daysAgo today (29 - k)

/-- The same loop's initialisation `map[d] = { date: d, income: 0, expense: 0, net: 0 }`. -/
def initMap (dates : List String) : String → Option DayEntry :=
  fun s => if s ∈ dates then some ⟨s, 0, 0, 0⟩ else none

/-- The entry update of lines 680-683: add the amount to `income` when
`t.type === 'income'` (raw field test; everything else counts as expense)
and refresh `net = income - expense`. -/
def updateEntry (e : DayEntry) (t : Tx) : DayEntry :=
  let e' :=
    if t.type == some "income" then { e with income := e.income + t.amount }
    else { e with expense := e.expense + t.amount }
  { e' with net := e'.income - e'.expense }

/-- One iteration of the bucketing loop (lines 678-684): `if (map[t.date])`
then update the bucket.  A missing `t.date` indexes the object at an absent
key, hence no update. -/
def applyTx (m : String → Option DayEntry) (t : Tx) : String → Option DayEntry :=
  match t.date with
  | none => m
  | some key =>
    match m key with
    | none => m
    | some e => fun s => if s = key then some (updateEntry e t) else m s

/-- `chartDaily` (lines 670-686): build the 30 labels and their buckets from
the *filtered* transactions, then `dates.map(d => map[d])`.  The `getD`
default is never used (every label is initialised); it carries the label so
that the value is well-formed in every case. -/
def chartDaily (today : Int) (txs : List Tx) : List DayEntry :=
  let dates := windowDates today
  let m := txs.foldl applyTx (initMap dates)
  dates.map fun d => (m d).getD ⟨d, 0, 0, 0⟩

/-! ## Category aggregation (`byCategory`, lines 688-698)

The JS accumulates into an object (string keys, insertion order) and then
applies `Object.values(...).sort((a, b) => b.expense - a.expense).slice(0, 10)`.
The object is modelled as an association list in key-insertion order;
`Array.prototype.sort`, which ECMAScript guarantees to be stable, is modelled
by Mathlib's stable `insertionSort` with the "should precede or tie" relation
of the comparator. -/

structure CatAgg where
  category : String
  expense : Int
deriving DecidableEq, Repr

/-- `(agg[t.category] ||= { category, expense: 0 }).expense += t.amount`:
update an existing key in place, or append a fresh key at the end. -/
def upsert : List CatAgg → String → Int → List CatAgg
  | [], c, a => [⟨c, a⟩]
  | x :: xs, c, a =>
    if x.category = c then ⟨c, x.expense + a⟩ :: xs else x :: upsert xs c a

/-- The accumulation loop of lines 689-694 over the filtered transactions
(`if (t.type !== 'expense') continue` — raw field, no defaulting). -/
def aggList (txs : List Tx) : List CatAgg :=
  txs.foldl (fun l t => if t.type == some "expense" then upsert l t.category t.amount else l) []

/-- The comparator `(a, b) => b.expense - a.expense` as the non-strict
"sorts before or ties" relation. -/
def catDesc (a b : CatAgg) : Prop := b.expense ≤ a.expense

instance : DecidableRel catDesc := fun _ _ => inferInstanceAs (Decidable (_ ≤ _))

instance : IsTotal CatAgg catDesc :=
  ⟨fun a b => (le_total b.expense a.expense).elim Or.inl Or.inr⟩

instance : IsTrans CatAgg catDesc :=
  ⟨fun _ _ _ h₁ h₂ => le_trans h₂ h₁⟩

/-- `Object.values(agg).sort((a, b) => b.expense - a.expense)`: a stable
descending sort by summed expense. -/
def sortCats (l : List CatAgg) : List CatAgg := l.insertionSort catDesc

/-- `byCategory` (lines 688-698): sort the per-category sums descending and
keep the first ten (`.slice(0, 10)`). -/
def byCategory (txs : List Tx) : List CatAgg := (sortCats (aggList txs)).take 10

/-! ## Expense-by-date line chart of the first dashboard component
(`TransactionsList.jsx` lines 107-159) -/

/-- `expenseTx = transactions.filter(t => (t.type || 'expense') === 'expense')`
(line 108). -/
def expenseTx1 (txs : List Tx1) : List Tx1 :=
  txs.filter fun t => jsOrType t.type == "expense"

/-- `monthExpenseTx` (lines 134-137): expense transactions of the reference
month. -/
def monthExpenseTx (txs : List Tx1) (y : Int) (m : Nat) : List Tx1 :=
  (expenseTx1 txs).filter fun t => t.date.month == m && t.date.year == y

/-- One step of `byDate[key] = (byDate[key] || 0) + tx.amount` (lines 138-142);
the JS object is modelled as a total function with default `0`. -/
def bump (f : String → Int) (k : String) (a : Int) : String → Int :=
  fun s => if s = k then f s + a else f s

/-- The `byDate` accumulation object (lines 138-142). -/
def byDate (txs : List Tx1) (y : Int) (m : Nat) : String → Int :=
  (monthExpenseTx txs y m).foldl (fun f t => bump f (isoOfDate t.date) t.amount) (fun _ => 0)

/-- `dateLabels` (lines 144-145): one ISO label per day `1..daysInMonth` of
the reference month. -/
def dateLabels (y : Int) (m : Nat) : List String :=
  (List.range (daysInMonth y m)).map fun i => isoOfDate ⟨y, m, i + 1⟩

/-- The line-chart data `dateLabels.map(date => byDate[date] || 0)`
(line 151): the dense zero-filled daily series for the month
(`dailySeriesForMonth` in the spec). -/
def lineData (txs : List Tx1) (y : Int) (m : Nat) : List Int :=
  (dateLabels y m).map fun l => byDate txs y m l

/-- Modelled from the spec: the amount an entry of the daily series should
hold for calendar day `dt` — the sum over the month's expense transactions
dated exactly `dt`. -/
def sumExpenseOn (txs : List Tx1) (dt : CivilDate) : Int :=
  ((txs.filter fun t => jsOrType t.type == "expense" && t.date == dt).map Tx1.amount).sum

/-- Does the (optional) date string of a record parse to a day inside the
reference month?  This is the date condition of `monthlyExpenses`
(lines 645-648) in predicate form. -/
def inRefMonth (y : Int) (m : Nat) (date : Option String) : Bool :=
  match date with
  | some ds =>
    match parseDate ds with
    | some d => d.year == y && d.month == m
    | none => false
  | none => false

/-- Append a key if it is not present yet: one step of first-encounter
key-insertion order of a JS object. -/
def insKey (cs : List String) (c : String) : List String :=
  if c ∈ cs then cs else cs ++ [c]

/-- Modelled from the spec: the first-encounter order of a list of category
keys — each key listed once, in the order of its first occurrence.  This is
the key order ECMAScript guarantees for `Object.values` of the accumulation
object. -/
def encounterOrder (l : List String) : List String := l.foldl insKey []

/-! ## Concrete fixtures used in the closed statements below -/

/-- Filters selecting expenses, everything else pass-all. -/
def filtersExpense : Filters := ⟨"expense", "all", "", "", ""⟩

/-- A transaction with no `type` field. -/
def txNoType : Tx := ⟨none, 10, "Food", none, some "2024-06-01"⟩

/-- A transaction whose `type` field is literally `'expense'`. -/
def txExpense : Tx := ⟨some "expense", 10, "Food", none, some "2024-06-01"⟩

/-- The spec's totals example: income 1000, expense 300, and an amount of 200
with no explicit type. -/
def exampleTxs : List Tx :=
  [⟨some "income", 1000, "Salary", none, some "2024-06-01"⟩,
   ⟨some "expense", 300, "Food", none, some "2024-06-01"⟩,
   ⟨none, 200, "Misc", none, some "2024-06-01"⟩]

/-- The same example in the record shape of the first dashboard component. -/
def exampleTxs1 : List Tx1 :=
  [⟨some "income", 1000, "Salary", ⟨2024, 6, 1⟩⟩,
   ⟨some "expense", 300, "Food", ⟨2024, 6, 1⟩⟩,
   ⟨none, 200, "Misc", ⟨2024, 6, 1⟩⟩]

/-- An amount of 200 with no `type` field, dated inside June 2024. -/
def txNoTypeJune : Tx := ⟨none, 200, "Misc", none, some "2024-06-10"⟩

/-- A transaction whose date string carries a time suffix, so it is not
equal to any `YYYY-MM-DD` window label. -/
def txTimeSuffix : Tx := ⟨some "expense", 5, "Food", none, some "1970-01-15T00:00"⟩

/-- An expense transaction of the first component, dated 2024-02-10. -/
def txFeb : Tx1 := ⟨some "expense", 50, "Food", ⟨2024, 2, 10⟩⟩

/-- Eleven expense transactions with eleven distinct categories. -/
def elevenCats : List Tx :=
  (List.range 11).map fun i =>
    ⟨some "expense", (i : Int), "cat" ++ toString i, none, some "2024-06-01"⟩

/-! # Theorems -/

/-! ## C1 — type filtering in `applyFilters` -/

/-- **C1** (as stated, refuted): the claim says a transaction with no `type`
field is kept when `typeFilter = 'expense'` (effective type defaulting).
The code compares the raw field (`t.type === typeFilter`), so such a
transaction is dropped even though its effective type equals the filter and
every other filter predicate passes. -/
theorem applyFilters_default_cex :
    filtered filtersExpense [txNoType] = [] ∧
    effType txNoType.type = filtersExpense.typeFilter ∧
    filtersExpense.typeFilter ≠ "all" ∧
    inCategoryB filtersExpense txNoType = true ∧
    inTextB filtersExpense txNoType = true ∧
    inDateB filtersExpense txNoType = true := by
  decide

/-- **C1** (amended): for every filter with `typeFilter ≠ 'all'`, `filtered`
keeps exactly the transactions whose *raw* `type` field equals `typeFilter`
and which pass the category, text and date predicates; a transaction with a
missing `type` field is always dropped (no defaulting to `'expense'`). -/
theorem applyFilters_type_exact (f : Filters) (txs : List Tx) (t : Tx)
    (h : f.typeFilter ≠ "all") :
    t ∈ filtered f txs ↔
      t ∈ txs ∧ t.type = some f.typeFilter ∧
        inCategoryB f t = true ∧ inTextB f t = true ∧ inDateB f t = true := by
  simp only [filtered, List.mem_filter, passes, Bool.and_eq_true, inTypeB,
    Bool.or_eq_true, beq_iff_eq, h, false_or, and_assoc]

theorem applyFilters_type_exact_witness :
    filtersExpense.typeFilter ≠ "all" ∧
    (txExpense ∈ filtered filtersExpense [txExpense] ↔
      txExpense ∈ [txExpense] ∧ txExpense.type = some filtersExpense.typeFilter ∧
        inCategoryB filtersExpense txExpense = true ∧
        inTextB filtersExpense txExpense = true ∧
        inDateB filtersExpense txExpense = true) :=
  ⟨by decide, applyFilters_type_exact filtersExpense [txExpense] txExpense (by decide)⟩

/-! ## C2 — totals by type -/

theorem sums_foldl (l : List Tx) (p : Int × Int) :
    l.foldl
      (fun (p : Int × Int) t =>
        if t.type == some "income" then (p.1 + t.amount, p.2) else (p.1, p.2 + t.amount)) p
    = (p.1 + ((l.filter fun t => t.type == some "income").map Tx.amount).sum,
       p.2 + ((l.filter fun t => !(t.type == some "income")).map Tx.amount).sum) := by
  induction l generalizing p with
  | nil => simp
  | cons t l ih =>
    rw [List.foldl_cons, ih]
    cases hty : (t.type == some "income") <;>
      simp [List.filter_cons, hty, Prod.ext_iff] <;> omega

theorem sums_eq (l : List Tx) :
    sums l = ⟨((l.filter fun t => t.type == some "income").map Tx.amount).sum,
      ((l.filter fun t => !(t.type == some "income")).map Tx.amount).sum,
      ((l.filter fun t => t.type == some "income").map Tx.amount).sum
        - ((l.filter fun t => !(t.type == some "income")).map Tx.amount).sum⟩ := by
  unfold sums
  rw [sums_foldl]
  simp

/-- **C2**: `sums` (the `totalsByType` of the dashboard) accumulates
`type === 'income'` amounts into `income` and everything whose effective type
is `'expense'` into `expense` (on records whose type is absent, `'income'`,
or `'expense'`, which is the data model's invariant), with
`balance = income - expense`; and on the spec's example list the result is
`{income: 1000, expense: 500, balance: 500}` — both for `sums` and for the
first component's `totalIncome`/`totalExpense`/`totalBalance`. -/
theorem totalsByType_spec (l : List Tx)
    (h : l.all (fun t =>
      t.type == none || t.type == some "income" || t.type == some "expense") = true) :
    (sums l).income = ((l.filter fun t => t.type == some "income").map Tx.amount).sum ∧
    (sums l).expense = ((l.filter fun t => effType t.type == "expense").map Tx.amount).sum ∧
    (sums l).balance = (sums l).income - (sums l).expense ∧
    sums exampleTxs = ⟨1000, 500, 500⟩ ∧
    totalIncome exampleTxs1 = 1000 ∧ totalExpense exampleTxs1 = 500 ∧
    totalBalance exampleTxs1 = 500 := by
  have hcong : ∀ t ∈ l, (effType t.type == "expense") = !(t.type == some "income") := by
    intro t ht
    have ht' := List.all_eq_true.mp h t ht
    simp only [Bool.or_eq_true, beq_iff_eq] at ht'
    rcases ht' with (h1 | h1) | h1 <;> simp [h1, effType]
  refine ⟨?_, ?_, ?_, by decide, by decide, by decide, by decide⟩
  · simp [sums_eq]
  · rw [List.filter_congr hcong]
    simp [sums_eq]
  · simp [sums_eq]

theorem totalsByType_spec_witness :
    (exampleTxs.all (fun t =>
      t.type == none || t.type == some "income" || t.type == some "expense") = true) ∧
    ((sums exampleTxs).income
        = ((exampleTxs.filter fun t => t.type == some "income").map Tx.amount).sum ∧
      (sums exampleTxs).expense
        = ((exampleTxs.filter fun t => effType t.type == "expense").map Tx.amount).sum ∧
      (sums exampleTxs).balance = (sums exampleTxs).income - (sums exampleTxs).expense ∧
      sums exampleTxs = ⟨1000, 500, 500⟩ ∧
      totalIncome exampleTxs1 = 1000 ∧ totalExpense exampleTxs1 = 500 ∧
      totalBalance exampleTxs1 = 500) :=
  ⟨by decide, totalsByType_spec exampleTxs (by decide)⟩

/-! ## C4 — dense daily series for a month -/

theorem CivilDate.eq_iff (x : CivilDate) (a : Int) (b c : Nat) :
    x = ⟨a, b, c⟩ ↔ x.year = a ∧ x.month = b ∧ x.day = c := by
  constructor
  · rintro rfl
    exact ⟨rfl, rfl, rfl⟩
  · rintro ⟨h1, h2, h3⟩
    cases x
    simp_all

theorem pad2_inj (a b : Nat) (ha : a < 100) (hb : b < 100)
    (h : (pad2 a).data = (pad2 b).data) : a = b := by
  unfold pad2 at h
  simp only [List.cons.injEq, and_true] at h
  have hinj : ∀ x < 10, ∀ y < 10, Nat.digitChar x = Nat.digitChar y → x = y := by decide
  have h1 := hinj (a / 10) (by omega) (b / 10) (by omega) h.1
  have h2 := hinj (a % 10) (by omega) (b % 10) (by omega) h.2
  omega

theorem isoOfDate_inj_day (y : Int) (m : Nat) (d d' : Nat) (hd : d < 100) (hd' : d' < 100)
    (h : isoOfDate ⟨y, m, d⟩ = isoOfDate ⟨y, m, d'⟩) : d = d' := by
  have h2 := congrArg String.data h
  unfold isoOfDate at h2
  simp only [String.data_append] at h2
  exact pad2_inj d d' hd hd' (List.append_cancel_left h2)

theorem daysInMonth_le (y : Int) (m : Nat) : daysInMonth y m ≤ 31 := by
  unfold daysInMonth
  split_ifs <;> omega

theorem byDate_foldl (l : List Tx1) (f : String → Int) (k : String) :
    (l.foldl (fun f t => bump f (isoOfDate t.date) t.amount) f) k
      = f k + ((l.filter fun t => isoOfDate t.date == k).map Tx1.amount).sum := by
  induction l generalizing f with
  | nil => simp
  | cons t l ih =>
    rw [List.foldl_cons, ih, List.filter_cons]
    by_cases hk : isoOfDate t.date = k
    · rw [if_pos (by simp [hk])]
      simp [bump, hk]
      omega
    · rw [if_neg (by simp [hk])]
      simp [bump, hk]
      intro hk2
      exact absurd hk2.symm hk

theorem byDate_eq (txs : List Tx1) (y : Int) (m : Nat) (k : String) :
    byDate txs y m k
      = (((monthExpenseTx txs y m).filter fun t => isoOfDate t.date == k).map Tx1.amount).sum := by
  unfold byDate
  rw [byDate_foldl]
  simp

/-- **C4**: `lineData` (`dailySeriesForMonth`) has exactly one entry per
calendar day `1..daysInMonth` of the reference month (leap-year-aware day
count), and the entry for day `d` is the sum over the month's expense
transactions dated exactly day `d` — in particular `0` for a day with no
matching transaction, and on the empty list for February 2024 the series is
29 zero entries.  (The day-field bound `< 100` is where the two-digit string
keys of the JS object are faithful; every real calendar day satisfies it.) -/
theorem dailySeries_spec (txs : List Tx1) (y : Int) (m : Nat)
    (h : (txs.all fun t => decide (t.date.day < 100)) = true) :
    lineData txs y m
      = (List.range (daysInMonth y m)).map (fun i => sumExpenseOn txs ⟨y, m, i + 1⟩) ∧
    (lineData txs y m).length = daysInMonth y m ∧
    lineData [] 2024 2 = List.replicate 29 0 ∧
    daysInMonth 2024 2 = 29 := by
  refine ⟨?_, ?_, by decide, by decide⟩
  case refine_2 =>
    unfold lineData dateLabels
    simp
  case refine_1 =>
    unfold lineData dateLabels
    rw [List.map_map]
    apply List.map_congr_left
    intro i hi
    rw [List.mem_range] at hi
    have hi1 : i + 1 < 100 := by
      have := daysInMonth_le y m
      omega
    simp only [Function.comp_apply]
    rw [byDate_eq]
    unfold sumExpenseOn monthExpenseTx expenseTx1
    rw [List.filter_filter, List.filter_filter]
    refine congrArg List.sum (congrArg (List.map Tx1.amount) ?_)
    apply List.filter_congr
    intro t ht
    have hday : t.date.day < 100 := by
      have := List.all_eq_true.mp h t ht
      simpa using this
    by_cases hdt : t.date = (⟨y, m, i + 1⟩ : CivilDate)
    · simp [hdt]
    · have hR : (jsOrType t.type == "expense" && (t.date == (⟨y, m, i + 1⟩ : CivilDate)))
          = false := by
        simp [hdt]
      rw [hR]
      by_cases hmy : t.date.month = m ∧ t.date.year = y
      · obtain ⟨hm1, hy1⟩ := hmy
        have ht' : t.date = (⟨y, m, t.date.day⟩ : CivilDate) :=
          (CivilDate.eq_iff _ _ _ _).mpr ⟨hy1, hm1, rfl⟩
        have hiso : isoOfDate t.date ≠ isoOfDate ⟨y, m, i + 1⟩ := by
          intro he
          rw [ht'] at he
          exact hdt ((CivilDate.eq_iff _ _ _ _).mpr
            ⟨hy1, hm1, isoOfDate_inj_day y m _ _ hday hi1 he⟩)
        simp [hiso]
      · have hp2 : (t.date.month == m && t.date.year == y) = false := by
          rcases not_and_or.mp hmy with hmm | hyy
          · simp [hmm]
          · simp [hyy]
        simp [hp2]

theorem dailySeries_spec_witness :
    (([txFeb].all fun t => decide (t.date.day < 100)) = true) ∧
    (lineData [txFeb] 2024 2
        = (List.range (daysInMonth 2024 2)).map (fun i => sumExpenseOn [txFeb] ⟨2024, 2, i + 1⟩) ∧
      (lineData [txFeb] 2024 2).length = daysInMonth 2024 2 ∧
      lineData [] 2024 2 = List.replicate 29 0 ∧
      daysInMonth 2024 2 = 29) :=
  ⟨by decide, dailySeries_spec [txFeb] 2024 2 (by decide)⟩

/-! ## C5 — this-month expense -/

theorem monthStep_eq (y : Int) (m : Nat) (acc : Int) (t : Tx) :
    monthStep y m acc t
      = acc + (if t.type == some "expense" && inRefMonth y m t.date then t.amount else 0) := by
  unfold monthStep inRefMonth
  cases hty : (t.type == some "expense") <;>
    cases hd : t.date <;>
      simp [bne, hty, hd]
  case some ds =>
  cases hp : parseDate ds <;> simp [hp]
  case some d =>
  by_cases hm : d.year = y ∧ d.month = m
  · simp [hm.1, hm.2]
  · have : (d.year == y && d.month == m) = false := by
      rcases not_and_or.mp hm with h1 | h1 <;> simp [h1]
    simp [hm, this]

theorem monthlyExpenses_foldl (y : Int) (m : Nat) (txs : List Tx) (acc : Int) :
    txs.foldl (monthStep y m) acc
      = acc + ((txs.filter fun t =>
          t.type == some "expense" && inRefMonth y m t.date).map Tx.amount).sum := by
  induction txs generalizing acc with
  | nil => simp
  | cons t l ih =>
    simp only [List.foldl_cons, List.filter_cons, monthStep_eq]
    cases hc : (t.type == some "expense" && inRefMonth y m t.date) <;>
      simp [ih, hc] <;> ring

/-- **C5** (amended): `monthlyExpenses` sums `amount` over the *unfiltered*
transaction list (the definition takes the raw list; the view filters do not
occur in it) over exactly those records whose `type` field is literally
`'expense'` — a record with a *missing* type field is excluded here, unlike
the claim's "missing type defaults to expense" — and whose date parses to a
day in the reference month; records with a missing or unparseable date
contribute nothing, and the function is total (never raises). -/
theorem monthlyExpenses_eq (y : Int) (m : Nat) (txs : List Tx) :
    monthlyExpenses y m txs
      = ((txs.filter fun t =>
          t.type == some "expense" && inRefMonth y m t.date).map Tx.amount).sum := by
  simpa using monthlyExpenses_foldl y m txs 0

/-- **C5** (as stated, refuted): a record with no `type` field, dated inside
the reference month, has effective type `'expense'` and a parseable in-month
date, yet `monthlyExpenses` ignores it (`t.type !== 'expense'` on the raw
field), returning 0 instead of the claimed 200. -/
theorem monthlyExpenses_default_cex :
    monthlyExpenses 2024 6 [txNoTypeJune] = 0 ∧
    effType txNoTypeJune.type = "expense" ∧
    txNoTypeJune.amount = 200 ∧
    txNoTypeJune.date = some "2024-06-10" ∧
    parseDate "2024-06-10" = some ⟨2024, 6, 10⟩ := by
  decide

/-! ## C6 — budget derivation -/

/-- **C6**: `deriveBudgetStatus` sets `isSet` iff the budget is present and
positive; when set, `remaining = budget - expense` (possibly negative) and
`spentRatio` is `expense / budget` clamped to `[0, 1]` (for the app's
non-negative expense totals `Math.min(1, ·)` coincides with the two-sided
clamp); when unset, `remaining` is absent and `spentRatio = 0`;
`isOverBudget` holds iff the budget is set and `remaining < 0`; and
`deriveBudgetStatus(1000000, 1200000)` is
`{isSet: true, remaining: -200000, spentRatio: 1, percent: 100, isOverBudget: true}`. -/
theorem deriveBudgetStatus_spec (b : Option ℚ) (e : ℚ) (he : 0 ≤ e) :
    ((deriveBudgetStatus b e).isSet = true ↔ b ≠ none ∧ 0 < b.getD 0) ∧
    ((deriveBudgetStatus b e).isSet = true →
      (deriveBudgetStatus b e).remaining = some (b.getD 0 - e)) ∧
    ((deriveBudgetStatus b e).isSet = false →
      (deriveBudgetStatus b e).remaining = none ∧ (deriveBudgetStatus b e).spentRatio = 0) ∧
    ((deriveBudgetStatus b e).isSet = true →
      (deriveBudgetStatus b e).spentRatio = max 0 (min 1 (e / b.getD 0))) ∧
    ((deriveBudgetStatus b e).isOverBudget = true ↔
      (deriveBudgetStatus b e).isSet = true ∧ b.getD 0 - e < 0) ∧
    deriveBudgetStatus (some 1000000) 1200000 = ⟨true, some (-200000), 1, 100, true⟩ := by
  refine ⟨?_, ?_, ?_, ?_, ?_, ?_⟩
  case _ =>
    cases b with
    | none => simp [deriveBudgetStatus]
    | some q => by_cases hq : 0 < q <;> simp [deriveBudgetStatus, hq]
  case _ =>
    cases b with
    | none => simp [deriveBudgetStatus]
    | some q => by_cases hq : 0 < q <;> simp [deriveBudgetStatus, hq]
  case _ =>
    cases b with
    | none => simp [deriveBudgetStatus]
    | some q => by_cases hq : 0 < q <;> simp [deriveBudgetStatus, hq]
  case _ =>
    cases b with
    | none => simp [deriveBudgetStatus]
    | some q =>
      by_cases hq : 0 < q
      · simp [deriveBudgetStatus, hq]
        exact div_nonneg he hq.le
      · simp [deriveBudgetStatus, hq]
  case _ =>
    cases b with
    | none => simp [deriveBudgetStatus]
    | some q => by_cases hq : 0 < q <;> simp [deriveBudgetStatus, hq]
  case _ =>
    simp [deriveBudgetStatus, jsRound]
    norm_num

/-! ## C7 and C10 — top categories -/

theorem upsert_map (l : List CatAgg) (c : String) (a : Int) :
    (upsert l c a).map CatAgg.category = insKey (l.map CatAgg.category) c := by
  induction l with
  | nil => simp [upsert, insKey]
  | cons x xs ih =>
    by_cases hx : x.category = c
    · unfold upsert insKey
      simp [hx]
    · unfold upsert
      rw [if_neg hx]
      simp only [List.map_cons]
      rw [ih]
      unfold insKey
      by_cases hc : c ∈ xs.map CatAgg.category
      · rw [if_pos hc, if_pos (by simp [hc])]
      · rw [if_neg hc,
          if_neg (by simp only [List.mem_cons, not_or]; exact ⟨fun h => hx h.symm, hc⟩)]
        simp

theorem aggList_go (txs : List Tx) (acc : List CatAgg) :
    (txs.foldl
        (fun l t => if t.type == some "expense" then upsert l t.category t.amount else l)
        acc).map CatAgg.category
      = ((txs.filter fun t => t.type == some "expense").map Tx.category).foldl insKey
          (acc.map CatAgg.category) := by
  induction txs generalizing acc with
  | nil => simp
  | cons t l ih =>
    rw [List.foldl_cons, List.filter_cons]
    by_cases hty : (t.type == some "expense") = true
    · rw [if_pos hty, if_pos hty, ih, List.map_cons, List.foldl_cons, upsert_map]
    · rw [if_neg hty, if_neg hty]
      exact ih acc

theorem aggList_categories (txs : List Tx) :
    (aggList txs).map CatAgg.category
      = encounterOrder ((txs.filter fun t => t.type == some "expense").map Tx.category) := by
  unfold aggList encounterOrder
  simpa using aggList_go txs []

theorem insKey_nodup (cs : List String) (c : String) (h : cs.Nodup) : (insKey cs c).Nodup := by
  unfold insKey
  by_cases hc : c ∈ cs
  · rwa [if_pos hc]
  · rw [if_neg hc]
    simp [List.nodup_append, h, hc]

theorem foldl_insKey_nodup (l : List String) (acc : List String) (h : acc.Nodup) :
    (l.foldl insKey acc).Nodup := by
  induction l generalizing acc with
  | nil => exact h
  | cons x xs ih => exact ih _ (insKey_nodup acc x h)

theorem sortCats_filter_eq (l : List CatAgg) (v : Int) :
    (sortCats l).filter (fun c => c.expense == v) = l.filter (fun c => c.expense == v) := by
  have hps : List.Sublist (l.filter (fun c => c.expense == v)) (sortCats l) := by
    apply List.sublist_insertionSort
    · apply List.pairwise_of_forall_mem_list
      intro a ha b hb
      have ha' := (List.mem_filter.mp ha).2
      have hb' := (List.mem_filter.mp hb).2
      simp only [beq_iff_eq] at ha' hb'
      unfold catDesc
      rw [ha', hb']
    · exact List.filter_sublist l
  have h2 : List.Sublist (l.filter (fun c => c.expense == v))
      ((sortCats l).filter (fun c => c.expense == v)) := by
    have h2' := List.Sublist.filter (fun c => c.expense == v) hps
    rwa [List.filter_eq_self.mpr (fun a ha => (List.mem_filter.mp ha).2)] at h2'
  have h3 : List.Perm ((sortCats l).filter (fun c => c.expense == v))
      (l.filter (fun c => c.expense == v)) :=
    (List.perm_insertionSort catDesc l).filter _
  exact (h2.eq_of_length h3.length_eq.symm).symm

/-- **C7**: the top-categories list is sorted descending by summed expense;
on exact ties the relative order is the order of the association list `agg`,
which (third conjunct) lists categories in first-encounter order of the
filtered expense transactions — so equal calls are identical (the embedding
is a pure function, so determinism is definitional), and ties are broken by
first encounter: for each value `v`, the tied entries of the output form a
prefix of the tied entries of the encounter-ordered aggregation. -/
theorem topCategories_sorted_stable (txs : List Tx) :
    List.Pairwise catDesc (byCategory txs) ∧
    (∀ v : Int, ∃ rest, (byCategory txs).filter (fun c => c.expense == v) ++ rest
        = (aggList txs).filter (fun c => c.expense == v)) ∧
    (aggList txs).map CatAgg.category
      = encounterOrder ((txs.filter fun t => t.type == some "expense").map Tx.category) := by
  refine ⟨?_, ?_, aggList_categories txs⟩
  · exact List.Pairwise.sublist (List.take_sublist 10 _)
      (List.sorted_insertionSort catDesc (aggList txs))
  · intro v
    refine ⟨((sortCats (aggList txs)).drop 10).filter (fun c => c.expense == v), ?_⟩
    unfold byCategory
    rw [← List.filter_append, List.take_append_drop, sortCats_filter_eq]

/-- **C10**: the top-categories list never has more than 10 entries; when the
number of per-category buckets (equal, by the last two conjuncts, to the
number of distinct expense categories) exceeds 10, exactly 10 survive, and
every dropped bucket's sum is at most every kept bucket's sum. -/
theorem topCategories_top10 (txs : List Tx) :
    (byCategory txs).length ≤ 10 ∧
    (10 < (aggList txs).length → (byCategory txs).length = 10) ∧
    (((sortCats (aggList txs)).drop 10).all fun b =>
        (byCategory txs).all fun a => decide (catDesc a b)) = true ∧
    ((aggList txs).map CatAgg.category).Nodup ∧
    (aggList txs).length
      = (encounterOrder ((txs.filter fun t => t.type == some "expense").map Tx.category)).length := by
  have hlen : (sortCats (aggList txs)).length = (aggList txs).length :=
    (List.perm_insertionSort catDesc (aggList txs)).length_eq
  refine ⟨?_, ?_, ?_, ?_, ?_⟩
  · unfold byCategory
    rw [List.length_take]
    omega
  · intro h10
    unfold byCategory
    rw [List.length_take]
    omega
  · have hsorted := List.sorted_insertionSort catDesc (aggList txs)
    have hsplit : List.Pairwise catDesc
        ((sortCats (aggList txs)).take 10 ++ (sortCats (aggList txs)).drop 10) := by
      rwa [List.take_append_drop]
    have hdom := (List.pairwise_append.mp hsplit).2.2
    simp only [List.all_eq_true, decide_eq_true_eq]
    intro b hb a ha
    exact hdom a ha b hb
  · rw [aggList_categories]
    exact foldl_insKey_nodup _ [] (by simp)
  · rw [← aggList_categories, List.length_map]

theorem topCategories_top10_witness : (byCategory elevenCats).length = 10 := by
  have h := topCategories_top10 elevenCats
  exact h.2.1 (by decide)

/-! ## C3 and C9 — the 30-day rolling window -/

theorem updateEntry_date (e : DayEntry) (t : Tx) : (updateEntry e t).date = e.date := by
  unfold updateEntry
  cases t.type == some "income" <;> simp

theorem applyTx_date_inv (m : String → Option DayEntry) (t : Tx)
    (h : ∀ s e, m s = some e → e.date = s) :
    ∀ s e, applyTx m t s = some e → e.date = s := by
  intro s e he
  unfold applyTx at he
  cases hd : t.date with
  | none => simp only [hd] at he; exact h s e he
  | some key =>
    simp only [hd] at he
    cases hm : m key with
    | none => simp only [hm] at he; exact h s e he
    | some e0 =>
      simp only [hm] at he
      by_cases hs : s = key
      · subst hs
        rw [if_pos rfl] at he
        cases he
        rw [updateEntry_date]
        exact h _ _ hm
      · rw [if_neg hs] at he
        exact h s e he

theorem foldl_date_inv (txs : List Tx) (m : String → Option DayEntry)
    (h : ∀ s e, m s = some e → e.date = s) :
    ∀ s e, txs.foldl applyTx m s = some e → e.date = s := by
  induction txs generalizing m with
  | nil => exact h
  | cons t l ih => exact ih _ (applyTx_date_inv m t h)

theorem applyTx_support (m : String → Option DayEntry) (t : Tx) (s : String)
    (h : m s = none) : applyTx m t s = none := by
  unfold applyTx
  cases hd : t.date with
  | none => exact h
  | some key =>
    cases hm : m key with
    | none => simp only [hm]; exact h
    | some e0 =>
      simp only [hm]
      have hsk : s ≠ key := by
        intro hs
        rw [hs, hm] at h
        cases h
      show (if s = key then some (updateEntry e0 t) else m s) = none
      rw [if_neg hsk]
      exact h

theorem foldl_support (txs : List Tx) (m : String → Option DayEntry) (s : String)
    (h : m s = none) : txs.foldl applyTx m s = none := by
  induction txs generalizing m with
  | nil => exact h
  | cons t l ih => exact ih _ (applyTx_support m t s h)

theorem applyTx_nodate (m : String → Option DayEntry) (t : Tx) (hd : t.date = none) :
    applyTx m t = m := by
  unfold applyTx
  simp only [hd]

theorem applyTx_missing_key (m : String → Option DayEntry) (t : Tx) (key : String)
    (hd : t.date = some key) (hm : m key = none) : applyTx m t = m := by
  unfold applyTx
  simp only [hd, hm]

theorem chartDaily_dates (today : Int) (txs : List Tx) :
    (chartDaily today txs).map DayEntry.date = windowDates today := by
  unfold chartDaily
  have hinv : ∀ s e, (txs.foldl applyTx (initMap (windowDates today))) s = some e → e.date = s := by
    apply foldl_date_inv
    intro s e he
    unfold initMap at he
    split at he
    · cases he; rfl
    · cases he
  rw [List.map_map]
  have hpt : ∀ d ∈ windowDates today,
      (DayEntry.date ∘ fun d =>
        ((txs.foldl applyTx (initMap (windowDates today))) d).getD ⟨d, 0, 0, 0⟩) d = id d := by
    intro d _
    simp only [Function.comp_apply, id]
    cases hm : (txs.foldl applyTx (initMap (windowDates today))) d with
    | none => rfl
    | some e => simpa using hinv d e hm
  rw [List.map_congr_left hpt, List.map_id]

theorem windowDates_eq (today : Int) :
    windowDates today = (List.range 30).map fun i : ℕ => toISO (today - 29 + (i : ℤ)) := by
  unfold windowDates daysAgo
  apply List.map_congr_left
  intro k hk
  rw [List.mem_range] at hk
  congr 1
  omega

/-- **C3**: `chartDaily` (`rollingWindowSeries`) always returns exactly 30
entries; entry `i` is the day `referenceDate - (29 - i)`, i.e. one entry per
calendar day of the window in ascending (oldest-first) date order; the last
entry's date is the reference date itself; and the ISO rendering is correct
on the spec's example day (`toISO 19889 = "2024-06-15"`). -/
theorem rollingWindow_spec (today : Int) (txs : List Tx) :
    (chartDaily today txs).length = 30 ∧
    (chartDaily today txs).map DayEntry.date
      = (List.range 30).map (fun i : ℕ => toISO (today - 29 + (i : ℤ))) ∧
    ((chartDaily today txs).map DayEntry.date).getLast? = some (toISO today) ∧
    toISO 19889 = "2024-06-15" := by
  refine ⟨?_, ?_, ?_, by decide⟩
  · unfold chartDaily windowDates
    simp
  · rw [chartDaily_dates, windowDates_eq]
  · rw [chartDaily_dates, windowDates_eq, List.getLast?_eq_getElem?]
    simp only [List.length_map, List.length_range, List.getElem?_map, List.getElem?_range]
    norm_num

/-- **C9**: `chartDaily` buckets only by exact string equality between
`t.date` and the 30 window labels: a transaction whose date string is not one
of the labels (e.g. carries a time suffix) leaves the output exactly as if
the transaction were absent — no date parsing or normalisation happens. -/
theorem rollingWindow_exact_match (today : Int) (t : Tx) (pre post : List Tx)
    (h : (t.date.all fun s => !((windowDates today).contains s)) = true) :
    chartDaily today (pre ++ t :: post) = chartDaily today (pre ++ post) := by
  have key : (pre ++ t :: post).foldl applyTx (initMap (windowDates today))
      = (pre ++ post).foldl applyTx (initMap (windowDates today)) := by
    rw [List.foldl_append, List.foldl_append, List.foldl_cons]
    congr 1
    cases hd : t.date with
    | none => exact applyTx_nodate _ _ hd
    | some s =>
      have hs : s ∉ windowDates today := by
        rw [hd] at h
        simpa using h
      have hnone : (pre.foldl applyTx (initMap (windowDates today))) s = none := by
        apply foldl_support
        unfold initMap
        rw [if_neg hs]
      exact applyTx_missing_key _ _ _ hd hnone
  simp only [chartDaily, key]

theorem rollingWindow_exact_match_witness :
    ((txTimeSuffix.date.all fun s => !((windowDates 29).contains s)) = true) ∧
    chartDaily 29 ([] ++ txTimeSuffix :: []) = chartDaily 29 ([] ++ []) :=
  ⟨by decide, rollingWindow_exact_match 29 txTimeSuffix [] [] (by decide)⟩

theorem deriveBudgetStatus_spec_witness :
    ((0:ℚ) ≤ 1200000) ∧
    (((deriveBudgetStatus (some 1000000) 1200000).isSet = true ↔
        (some 1000000 : Option ℚ) ≠ none ∧ 0 < (some (1000000:ℚ)).getD 0) ∧
      ((deriveBudgetStatus (some 1000000) 1200000).isSet = true →
        (deriveBudgetStatus (some 1000000) 1200000).remaining
          = some ((some (1000000:ℚ)).getD 0 - 1200000)) ∧
      ((deriveBudgetStatus (some 1000000) 1200000).isSet = false →
        (deriveBudgetStatus (some 1000000) 1200000).remaining = none ∧
          (deriveBudgetStatus (some 1000000) 1200000).spentRatio = 0) ∧
      ((deriveBudgetStatus (some 1000000) 1200000).isSet = true →
        (deriveBudgetStatus (some 1000000) 1200000).spentRatio
          = max 0 (min 1 (1200000 / (some (1000000:ℚ)).getD 0))) ∧
      ((deriveBudgetStatus (some 1000000) 1200000).isOverBudget = true ↔
        (deriveBudgetStatus (some 1000000) 1200000).isSet = true ∧
          (some (1000000:ℚ)).getD 0 - 1200000 < 0) ∧
      deriveBudgetStatus (some 1000000) 1200000 = ⟨true, some (-200000), 1, 100, true⟩) :=
  ⟨by norm_num, deriveBudgetStatus_spec (some 1000000) 1200000 (by norm_num)⟩

end Finance
